import Mathlib

/-!
Verification of the lido-council-daemon security services against their
specification.  The definitions below are a shallow embedding of
`SecurityService` (contracts/security), `ProviderHealthIndicator` (health)
and the `Configuration` interface (common/config/configuration.ts).
External collaborators (the RPC provider, the DSM and StakingRouter
contracts, the wallet) are modelled as an explicit environment record;
stateful fields of the services are threaded as explicit state.
-/

namespace LidoCouncil

/-- A recoverable secp256k1 signature as `@ethersproject/bytes` exposes it:
`r`, `s`, `v` and the compact `_vs` component.  The components are modelled
as naturals. -/
structure Signature where
  r : Nat
  s : Nat
  v : Nat
  _vs : Nat
  deriving DecidableEq, Repr

/-- An error thrown by an on-chain transaction: the DSM contract rejects a
pause either because the module is already paused, or for some other
reason. -/
inductive TxError where
  | alreadyPaused
  | other (msg : String)
  deriving DecidableEq, Repr

/-- The external world the `SecurityService` reads and writes: the DSM
contract's constants and guardian list, the StakingRouter's module-activity
view, the wallet and the provider.  Contract reads at a block tag are
modelled as functions of the tag. -/
structure ChainEnv where
  /-- Value returned by `contract.ATTEST_MESSAGE_PREFIX()`. -/
  attestPrefixValue : String
  /-- Value returned by `contract.PAUSE_MESSAGE_PREFIX()`. -/
  pausePrefixValue : String
  /-- `dsmContract.getGuardians({ blockTag })`. -/
  guardians : Nat → List String
  /-- `stakingRouterContract.getStakingModuleIsActive(stakingModuleId, { blockTag })`. -/
  stakingModuleIsActive : Nat → Nat → Bool
  /-- The wallet's private key held by the `WalletService`. -/
  walletKey : Nat
  /-- Address of the cached DSM contract instance. -/
  dsmAddress : Nat
  /-- Identity of the JSON-RPC provider. -/
  providerId : Nat

/-- The address an ethers `Wallet` derives from a private key (modelled as an
injective rendering of the key). -/
def addressOf (key : Nat) : String := "0x" ++ toString key

/-- `walletService.address`: the address derived from the wallet's key. -/
def walletAddress (env : ChainEnv) : String := addressOf env.walletKey

/-- `SecurityService.getGuardianAddress()`: returns `walletService.address`. -/
def getGuardianAddress (env : ChainEnv) : String := walletAddress env

/-! ## Configuration (src/common/config/configuration.ts) -/

/-- The field names of the daemon's `Configuration` interface, in source
order. -/
def configurationFields : List String :=
  ["NODE_ENV", "PORT", "LOG_LEVEL", "LOG_FORMAT", "RPC_URL",
   "WALLET_PRIVATE_KEY", "PUBSUB_SERVICE", "KAFKA_CLIENT_ID", "BROKER_TOPIC",
   "KAFKA_BROKER_ADDRESS_1", "KAFKA_BROKER_ADDRESS_2", "KAFKA_SSL",
   "KAFKA_SASL_MECHANISM", "KAFKA_USERNAME", "KAFKA_PASSWORD",
   "RABBITMQ_URL", "RABBITMQ_LOGIN", "RABBITMQ_PASSCODE",
   "REGISTRY_KEYS_QUERY_BATCH_SIZE", "REGISTRY_KEYS_QUERY_CONCURRENCY",
   "KEYS_API_PORT", "KEYS_API_HOST"]

/-! ## Module activity (SecurityService.isDepositsPaused) -/

/-- The StakingRouter contract read
`getStakingModuleIsActive(stakingModuleId, { blockTag })`. -/
def getStakingModuleIsActive (env : ChainEnv) (stakingModuleId blockTag : Nat) :
    Bool :=
  env.stakingModuleIsActive stakingModuleId blockTag

/-- `SecurityService.isDepositsPaused(stakingModuleId, blockTag)`: reads
`getStakingModuleIsActive` on the cached StakingRouter contract and returns
its negation. -/
def isDepositsPaused (env : ChainEnv) (stakingModuleId blockTag : Nat) : Bool :=
  !(getStakingModuleIsActive env stakingModuleId blockTag)

/-! ## Health indicator (ProviderHealthIndicator) -/

/-- Result record built by `HealthIndicator.getStatus`. -/
structure HealthStatus where
  key : String
  healthy : Bool
  blockTimestamp : Int
  nowTimestamp : Int
  deriving DecidableEq, Repr

/-- The `HealthCheckError` thrown by `isHealthy` when the provider is
stale. -/
structure HealthCheckError where
  message : String
  causes : HealthStatus
  deriving DecidableEq, Repr

/-- `ProviderHealthIndicator.getBlockTimestamp()`: fetches the latest block
and returns its timestamp; a thrown provider error (modelled as `none`) is
caught and `-1` returned. -/
def getBlockTimestamp (blockResult : Option Int) : Int :=
  match blockResult with
  | some timestamp => timestamp
  | none => -1

/-- `ProviderHealthIndicator.isHealthy(key)`: compares `|now − blockTimestamp|`
against `MAX_BLOCK_DELAY_SECONDS` (a constant, passed here as a parameter),
returning the status when healthy and throwing `HealthCheckError`
otherwise. -/
def isHealthy (maxBlockDelaySeconds : Int) (blockResult : Option Int)
    (nowTimestamp : Int) (key : String) : Except HealthCheckError HealthStatus :=
  let blockTimestamp := getBlockTimestamp blockResult
  let deltaTimestamp := |nowTimestamp - blockTimestamp|
  let healthy := decide (deltaTimestamp < maxBlockDelaySeconds)
  let result : HealthStatus := ⟨key, healthy, blockTimestamp, nowTimestamp⟩
  if healthy then Except.ok result
  else Except.error ⟨"Provider check failed", result⟩

/-! ## Guardian list (SecurityService.getGuardians / getGuardianIndex) -/

/-- JavaScript `Array.prototype.indexOf`: the index of the first occurrence
of `x`, or `-1` when `x` does not occur. -/
def jsIndexOf (l : List String) (x : String) : Int :=
  match l with
  | [] => -1
  | y :: ys =>
    if y = x then 0
    else
      let r := jsIndexOf ys x
      if r = -1 then -1 else r + 1

/-- `SecurityService.getGuardians(blockTag)`: the guardian list read from the
cached DSM contract at the given block tag. -/
def getGuardians (env : ChainEnv) (blockTag : Nat) : List String :=
  env.guardians blockTag

/-- `SecurityService.getGuardianIndex(blockTag)`:
`(await this.getGuardians(blockTag)).indexOf(this.walletService.address)`. -/
def getGuardianIndex (env : ChainEnv) (blockTag : Nat) : Int :=
  jsIndexOf (getGuardians env blockTag) (walletAddress env)

/-! ## Message prefixes (SecurityService.getAttestMessagePrefix /
getPauseMessagePrefix) -/

/-- The mutable fields of a `SecurityService` instance:
`cachedAttestMessagePrefix` and `cachedPauseMessagePrefix`, both
`string | null` initialized to `null`. -/
structure SecurityState where
  cachedAttestMessagePrefix : Option String
  cachedPauseMessagePrefix : Option String
  deriving DecidableEq, Repr

/-- The state of a freshly constructed `SecurityService`. -/
def initialSecurityState : SecurityState := ⟨none, none⟩

/-- JavaScript falsiness of a `string | null` value, as tested by
`if (!this.cachedAttestMessagePrefix)`: `null` and the empty string are
falsy. -/
def jsFalsy : Option String → Bool
  | none => true
  | some s => s == ""

/-- `SecurityService.getAttestMessagePrefix()`: when the cached field is
falsy, reads `ATTEST_MESSAGE_PREFIX()` from the DSM contract and stores it;
returns the field.  The third component records whether a contract read was
performed. -/
def getAttestMessagePrefix (env : ChainEnv) (st : SecurityState) :
    String × SecurityState × Bool :=
  if jsFalsy st.cachedAttestMessagePrefix then
    let messagePrefix := env.attestPrefixValue
    (messagePrefix, { st with cachedAttestMessagePrefix := some messagePrefix },
      true)
  else
    ((st.cachedAttestMessagePrefix).getD "", st, false)

/-- `SecurityService.getPauseMessagePrefix()`: same shape as
`getAttestMessagePrefix`, over `PAUSE_MESSAGE_PREFIX()` and its own cache
field. -/
def getPauseMessagePrefix (env : ChainEnv) (st : SecurityState) :
    String × SecurityState × Bool :=
  if jsFalsy st.cachedPauseMessagePrefix then
    let messagePrefix := env.pausePrefixValue
    (messagePrefix, { st with cachedPauseMessagePrefix := some messagePrefix },
      true)
  else
    ((st.cachedPauseMessagePrefix).getD "", st, false)

/-- A sequence of `n` calls to `getAttestMessagePrefix`, returning each
call's result value and whether it read the contract, with the final
state. -/
def attestCalls (env : ChainEnv) : Nat → SecurityState →
    List (String × Bool) × SecurityState
  | 0, st => ([], st)
  | n + 1, st =>
    let step := getAttestMessagePrefix env st
    let rest := attestCalls env n step.2.1
    ((step.1, step.2.2) :: rest.1, rest.2)

/-- A sequence of `n` calls to `getPauseMessagePrefix`. -/
def pauseCalls (env : ChainEnv) : Nat → SecurityState →
    List (String × Bool) × SecurityState
  | 0, st => ([], st)
  | n + 1, st =>
    let step := getPauseMessagePrefix env st
    let rest := pauseCalls env n step.2.1
    ((step.1, step.2.2) :: rest.1, rest.2)

/-- An environment whose DSM contract returns the empty string for
`ATTEST_MESSAGE_PREFIX()` — the value JavaScript treats as falsy. -/
def envEmptyPrefixes : ChainEnv :=
  { attestPrefixValue := ""
    pausePrefixValue := ""
    guardians := fun _ => []
    stakingModuleIsActive := fun _ _ => true
    walletKey := 0
    dsmAddress := 0
    providerId := 0 }

/-! ## On-chain pause submission (SecurityService.pauseDeposits) -/

/-- The result of `SecurityService.getContractWithSigner()`: the cached DSM
contract instance connected to the wallet, itself connected to the
provider. -/
structure ContractWithSigner where
  contractAddress : Nat
  signerWallet : Nat
  signerProvider : Nat
  deriving DecidableEq, Repr

/-- `SecurityService.getContractWithSigner()`: connects the wallet to the
provider and the cached DSM contract to that wallet. -/
def getContractWithSigner (env : ChainEnv) : ContractWithSigner :=
  { contractAddress := env.dsmAddress
    signerWallet := env.walletKey
    signerProvider := env.providerId }

/-- The environment of one `pauseDeposits` invocation: the chain context,
the outcome of `contract.pauseDeposits(...)` (a transaction hash, or a
thrown rejection) and the outcome of `tx.wait()`. -/
structure PauseEnv where
  chain : ChainEnv
  txOutcome : Except TxError String
  waitOutcome : Except TxError Unit

/-- The argument record of the on-chain call
`pauseDeposits(blockNumber, stakingModuleId, {r, vs})`. -/
structure PauseCall where
  blockNumber : Nat
  stakingModuleId : Nat
  r : Nat
  vs : Nat
  deriving DecidableEq, Repr

/-- The observable effects of one `SecurityService.pauseDeposits`
invocation: how often the pause-attempt counter was incremented, the
contract calls submitted (with the signer they went through), how often
`tx.wait()` — one confirmation — was awaited, and the returned or thrown
outcome. -/
structure PauseRun where
  pauseAttemptsInc : Nat
  calls : List (ContractWithSigner × PauseCall)
  confirmationsAwaited : Nat
  result : Except TxError Unit
  deriving Repr

/-- `SecurityService.pauseDeposits(blockNumber, stakingModuleId, signature)`:
logs, increments the pause-attempt counter, obtains the signer-connected DSM
contract, destructures `{ r, _vs: vs }` from the signature, submits
`pauseDeposits(blockNumber, stakingModuleId, { r, vs })`, and awaits
`tx.wait()`; any rejection propagates out of the method body. -/
def pauseDeposits (env : PauseEnv) (blockNumber stakingModuleId : Nat)
    (signature : Signature) : PauseRun :=
  let contract := getContractWithSigner env.chain
  let r := signature.r
  let vs := signature._vs
  let call : PauseCall :=
    { blockNumber := blockNumber, stakingModuleId := stakingModuleId,
      r := r, vs := vs }
  match env.txOutcome with
  | Except.error e =>
    { pauseAttemptsInc := 1, calls := [(contract, call)],
      confirmationsAwaited := 0, result := Except.error e }
  | Except.ok _hash =>
    match env.waitOutcome with
    | Except.error e =>
      { pauseAttemptsInc := 1, calls := [(contract, call)],
        confirmationsAwaited := 1, result := Except.error e }
    | Except.ok _ =>
      { pauseAttemptsInc := 1, calls := [(contract, call)],
        confirmationsAwaited := 1, result := Except.ok () }

/-! ## Signing (SecurityService.signDepositData / signPauseData) -/

/-- A byte-level encoding of a string into a natural (model of the EVM
packing of string-typed fields). -/
def encodeString (s : String) : Nat :=
  s.foldl (fun a c => a * 1114112 + c.toNat + 1) 1

/-- The digest of an attest message,
`keccak256(prefix ‖ keccak256(depositRoot ‖ keysOpIndex ‖ blockNumber ‖
blockHash ‖ stakingModuleId))`, modelled as an injective pairing of the
fields. -/
def depositMessageDigest (msgPrefix depositRoot : String)
    (keysOpIndex blockNumber : Nat) (blockHash : String)
    (stakingModuleId : Nat) : Nat :=
  Nat.pair (encodeString msgPrefix)
    (Nat.pair (encodeString depositRoot)
      (Nat.pair keysOpIndex
        (Nat.pair blockNumber
          (Nat.pair (encodeString blockHash) stakingModuleId))))

/-- The digest of a pause message,
`keccak256(prefix ‖ keccak256(blockNumber ‖ stakingModuleId))`, modelled as
an injective pairing of the fields. -/
def pauseMessageDigest (msgPrefix : String)
    (blockNumber stakingModuleId : Nat) : Nat :=
  Nat.pair (encodeString msgPrefix) (Nat.pair blockNumber stakingModuleId)

/-- Modelled from the spec: the `WalletService`'s recoverable secp256k1
signing of a digest (the wallet module is not under src/).  Per the spec the
signing is deterministic (same input gives the same `{r, s, v}`) and the
signer's address is recoverable from any produced signature; the model makes
the components functions of the key and digest, with the key recoverable
from `r`. -/
def walletSignHash (key digest : Nat) : Signature :=
  { r := Nat.pair key digest
    s := Nat.pair digest key
    v := 27 + (key + digest) % 2
    _vs := Nat.pair (Nat.pair digest key) ((key + digest) % 2) }

/-- Modelled from the spec: public-key recovery of the signer's address from
a recoverable signature. -/
def recoverAddress (signature : Signature) : String :=
  addressOf (Nat.unpair signature.r).1

/-- Modelled from the spec: `walletService.signDepositData({...})` — hash
the attest message fields and sign with the wallet key. -/
def walletSignDepositData (key : Nat) (msgPrefix depositRoot : String)
    (keysOpIndex blockNumber : Nat) (blockHash : String)
    (stakingModuleId : Nat) : Signature :=
  walletSignHash key
    (depositMessageDigest msgPrefix depositRoot keysOpIndex blockNumber
      blockHash stakingModuleId)

/-- Modelled from the spec: `walletService.signPauseData({...})`. -/
def walletSignPauseData (key : Nat) (msgPrefix : String)
    (blockNumber stakingModuleId : Nat) : Signature :=
  walletSignHash key (pauseMessageDigest msgPrefix blockNumber stakingModuleId)

/-- `SecurityService.signDepositData(depositRoot, keysOpIndex, blockNumber,
blockHash, stakingModuleId)`: fetches the (cached) attest message prefix and
delegates to `walletService.signDepositData`. -/
def signDepositData (env : ChainEnv) (st : SecurityState)
    (depositRoot : String) (keysOpIndex blockNumber : Nat)
    (blockHash : String) (stakingModuleId : Nat) : Signature × SecurityState :=
  let step := getAttestMessagePrefix env st
  (walletSignDepositData env.walletKey step.1 depositRoot keysOpIndex
      blockNumber blockHash stakingModuleId,
    step.2.1)

/-- `SecurityService.signPauseData(blockNumber, stakingModuleId)`: fetches
the (cached) pause message prefix and delegates to
`walletService.signPauseData`. -/
def signPauseData (env : ChainEnv) (st : SecurityState)
    (blockNumber stakingModuleId : Nat) : Signature × SecurityState :=
  let step := getPauseMessagePrefix env st
  (walletSignPauseData env.walletKey step.1 blockNumber stakingModuleId,
    step.2.1)

/-! ## Serial mutex around pauseDeposits (the OneAtTime decorator) -/

/-- An event at the `pauseDeposits` entry point: a new call arrives, or the
in-flight invocation completes. -/
inductive MutexEvent where
  | call
  | complete
  deriving DecidableEq, Repr

/-- Modelled from the spec: the `OneAtTime` decorator (common/decorators,
not under src/) gates `pauseDeposits` behind a process-wide serial mutex.
One step over the count of in-flight invocations: a call arriving while one
is in flight does not start a submission (the returned flag is whether a
submission started); a completion releases the mutex. -/
def oneAtTimeStep (inFlight : Nat) : MutexEvent → Nat × Bool
  | MutexEvent.call =>
    if 1 ≤ inFlight then (inFlight, false) else (inFlight + 1, true)
  | MutexEvent.complete => (inFlight - 1, false)

/-- The in-flight count after a sequence of entry-point events. -/
def oneAtTimeRun (inFlight : Nat) : List MutexEvent → Nat
  | [] => inFlight
  | ev :: evs => oneAtTimeRun (oneAtTimeStep inFlight ev).1 evs

/-! ## Pause retry across blocks -/

/-- The pause submitter's cross-block state: whether the module is paused on
chain, and how many block-driven submission attempts were made. -/
structure RetryState where
  paused : Bool
  attempts : Nat
  deriving DecidableEq, Repr

/-- Modelled from the spec: on each new block, while the conflict persists
and the module is not yet paused, the pipeline re-invokes the pause
submitter; a failed submission (outcome `false`) leaves the module unpaused
and is retried on the next block, a successful one pauses it, after which
no further attempts are made. -/
def pauseRetryStep (st : RetryState) (outcome : Bool) : RetryState :=
  if st.paused then st
  else { paused := outcome, attempts := st.attempts + 1 }

/-- The submitter's state after a sequence of per-block submission
outcomes. -/
def pauseRetryRun (st : RetryState) : List Bool → RetryState
  | [] => st
  | outcome :: rest => pauseRetryRun (pauseRetryStep st outcome) rest

/-- An environment with non-empty prefix constants and a two-guardian list,
used to instantiate proved theorems at a concrete input. -/
def envConcrete : ChainEnv :=
  { attestPrefixValue := "0xaa"
    pausePrefixValue := "0xbb"
    guardians := fun _ => ["0x9", "0x5"]
    stakingModuleIsActive := fun _ _ => true
    walletKey := 5
    dsmAddress := 77
    providerId := 3 }

/-- A concrete signature for instantiating theorems. -/
def sigConcrete : Signature := { r := 10, s := 11, v := 27, _vs := 12 }

/-- A pause environment whose transaction is accepted and confirmed. -/
def pauseEnvSuccess : PauseEnv :=
  { chain := envConcrete
    txOutcome := Except.ok "0xdead"
    waitOutcome := Except.ok () }

/-- A pause environment whose transaction is rejected because the module is
already paused. -/
def pauseEnvAlreadyPaused : PauseEnv :=
  { chain := envConcrete
    txOutcome := Except.error TxError.alreadyPaused
    waitOutcome := Except.ok () }

end LidoCouncil

namespace LidoCouncil

/-- C8: the claim says `CHAIN_ID` is a recognized option of the daemon's
configuration type.  It is not: the `Configuration` interface has no
`CHAIN_ID` member (it is an environment variable of the companion keys-api
container only). -/
theorem configuration_chain_id_counterexample :
    "CHAIN_ID" ∉ configurationFields ∧
    "RPC_URL" ∈ configurationFields ∧
    "WALLET_PRIVATE_KEY" ∈ configurationFields := by
  refine ⟨?_, ?_, ?_⟩ <;> decide

/-- C8 (amended): the daemon's configuration type accepts `RPC_URL` and
`WALLET_PRIVATE_KEY`, but `CHAIN_ID` is not among its recognized options. -/
theorem configuration_recognized_options :
    "RPC_URL" ∈ configurationFields ∧
    "WALLET_PRIVATE_KEY" ∈ configurationFields ∧
    "CHAIN_ID" ∉ configurationFields := by
  refine ⟨?_, ?_, ?_⟩ <;> decide

/-- C9: for every staking module id and block tag, `isDepositsPaused` returns
exactly the Boolean negation of the StakingRouter's
`getStakingModuleIsActive` at that module and block: deposits are reported
paused iff the module is not active. -/
theorem isDepositsPaused_iff_not_active
    (env : ChainEnv) (stakingModuleId blockTag : Nat) :
    isDepositsPaused env stakingModuleId blockTag
      = !(getStakingModuleIsActive env stakingModuleId blockTag) ∧
    (isDepositsPaused env stakingModuleId blockTag = true ↔
      getStakingModuleIsActive env stakingModuleId blockTag = false) := by
  constructor
  · rfl
  · simp [isDepositsPaused]

/-- C10: `getBlockTimestamp` is total — a failed `getBlock` yields `-1`, a
successful one yields the block's timestamp — and `isHealthy` throws a
`HealthCheckError` exactly when `|now − blockTimestamp|` is at least
`MAX_BLOCK_DELAY_SECONDS`, returning a healthy status otherwise. -/
theorem isHealthy_throws_iff_stale
    (maxBlockDelaySeconds : Int) (blockResult : Option Int)
    (nowTimestamp : Int) (key : String) :
    getBlockTimestamp none = -1 ∧
    (∀ t : Int, getBlockTimestamp (some t) = t) ∧
    ((∃ e, isHealthy maxBlockDelaySeconds blockResult nowTimestamp key
        = Except.error e) ↔
      maxBlockDelaySeconds ≤
        |nowTimestamp - getBlockTimestamp blockResult|) ∧
    ((∃ s, isHealthy maxBlockDelaySeconds blockResult nowTimestamp key
        = Except.ok s ∧ s.healthy = true) ↔
      |nowTimestamp - getBlockTimestamp blockResult| < maxBlockDelaySeconds) := by
  refine ⟨rfl, fun t => rfl, ?_, ?_⟩
  · unfold isHealthy
    by_cases h : |nowTimestamp - getBlockTimestamp blockResult|
        < maxBlockDelaySeconds <;> simp [h] <;> omega
  · unfold isHealthy
    by_cases h : |nowTimestamp - getBlockTimestamp blockResult|
        < maxBlockDelaySeconds <;> simp [h] <;> omega

/-- `jsIndexOf` never returns anything below `-1`. -/
theorem jsIndexOf_neg_one_or_nonneg (l : List String) (x : String) :
    jsIndexOf l x = -1 ∨ 0 ≤ jsIndexOf l x := by
  induction l with
  | nil => exact Or.inl rfl
  | cons y ys ih =>
    simp only [jsIndexOf]
    by_cases hyx : y = x
    · simp [hyx]
    · rw [if_neg hyx]
      by_cases hr : jsIndexOf ys x = -1
      · simp [hr]
      · rcases ih with h | h
        · exact absurd h hr
        · rw [if_neg hr]
          right
          omega

/-- `jsIndexOf` returns `-1` exactly on absence. -/
theorem jsIndexOf_eq_neg_one_iff (l : List String) (x : String) :
    jsIndexOf l x = -1 ↔ x ∉ l := by
  induction l with
  | nil => simp [jsIndexOf]
  | cons y ys ih =>
    simp only [jsIndexOf]
    by_cases hyx : y = x
    · simp [hyx]
    · rw [if_neg hyx]
      by_cases hr : jsIndexOf ys x = -1
      · rw [if_pos hr]
        simp only [List.mem_cons, not_or]
        constructor
        · intro _
          exact ⟨fun hxy => hyx hxy.symm, ih.mp hr⟩
        · intro _
          trivial
      · rw [if_neg hr]
        rcases jsIndexOf_neg_one_or_nonneg ys x with h | h
        · exact absurd h hr
        · have hx : x ∈ ys := by
            by_contra hmem
            exact hr (ih.mpr hmem)
          simp only [List.mem_cons, not_or]
          constructor
          · intro habs
            omega
          · intro habs
            exact absurd hx habs.2

/-- A non-negative `jsIndexOf` result is the first index holding `x`. -/
theorem jsIndexOf_spec (l : List String) (x : String) (i : Nat) :
    jsIndexOf l x = (i : Int) →
      l.get? i = some x ∧ ∀ j, j < i → l.get? j ≠ some x := by
  induction l generalizing i with
  | nil =>
    intro h
    simp only [jsIndexOf] at h
    have : (0 : Int) ≤ (i : Int) := Int.natCast_nonneg i
    omega
  | cons y ys ih =>
    intro h
    simp only [jsIndexOf] at h
    by_cases hyx : y = x
    · rw [if_pos hyx] at h
      have hi : i = 0 := by exact_mod_cast h.symm
      subst hi
      refine ⟨by simp [hyx], ?_⟩
      intro j hj
      omega
    · rw [if_neg hyx] at h
      by_cases hr : jsIndexOf ys x = -1
      · rw [if_pos hr] at h
        have : (0 : Int) ≤ (i : Int) := Int.natCast_nonneg i
        omega
      · rw [if_neg hr] at h
        rcases jsIndexOf_neg_one_or_nonneg ys x with h1 | h1
        · exact absurd h1 hr
        · obtain ⟨k, hk⟩ : ∃ k : Nat, jsIndexOf ys x = (k : Int) :=
            ⟨(jsIndexOf ys x).toNat, (Int.toNat_of_nonneg h1).symm⟩
          rw [hk] at h
          have hik : i = k + 1 := by
            have : ((k : Int) + 1) = (i : Int) := h
            omega
          subst hik
          obtain ⟨hget, hbefore⟩ := ih k hk
          refine ⟨by simpa using hget, ?_⟩
          intro j hj
          match j with
          | 0 =>
            simp only [List.get?_cons_zero, ne_eq, Option.some.injEq]
            exact hyx
          | Nat.succ j' =>
            simp only [List.get?_cons_succ]
            exact hbefore j' (by omega)

/-- C4: for every block tag, `getGuardianIndex` returns the zero-based index
of the wallet's address in the guardian list read from the DSM contract at
that block — the first position holding the address, with no earlier
occurrence — and returns `-1` exactly when the address is not in that
list. -/
theorem getGuardianIndex_spec (env : ChainEnv) (blockTag : Nat) :
    (getGuardianIndex env blockTag = -1 ↔
      walletAddress env ∉ getGuardians env blockTag) ∧
    (∀ i : Nat, getGuardianIndex env blockTag = (i : Int) →
      (getGuardians env blockTag).get? i = some (walletAddress env) ∧
      ∀ j, j < i →
        (getGuardians env blockTag).get? j ≠ some (walletAddress env)) ∧
    (walletAddress env ∈ getGuardians env blockTag →
      ∃ i : Nat, getGuardianIndex env blockTag = (i : Int)) := by
  refine ⟨jsIndexOf_eq_neg_one_iff _ _, ?_, ?_⟩
  · intro i hi
    exact jsIndexOf_spec _ _ i hi
  · intro hmem
    rcases jsIndexOf_neg_one_or_nonneg (getGuardians env blockTag)
        (walletAddress env) with h | h
    · exact absurd ((jsIndexOf_eq_neg_one_iff _ _).mp h) (not_not_intro hmem)
    · exact ⟨(getGuardianIndex env blockTag).toNat,
        (Int.toNat_of_nonneg h).symm⟩

/-- C3 fails as stated: when the DSM contract's `ATTEST_MESSAGE_PREFIX()` is
the empty string (falsy in JavaScript), the second call to
`getAttestMessagePrefix` re-reads the contract (its read flag is `true`)
instead of returning the first call's cached value without a read. -/
theorem attestMessagePrefix_cache_counterexample :
    (attestCalls envEmptyPrefixes 2 initialSecurityState).1
      = [("", true), ("", true)] := by rfl

/-- With a cached non-empty attest prefix, every further call returns it,
reads nothing, and leaves the state unchanged. -/
theorem attestCalls_cached (env : ChainEnv) (p : String) (hp : p ≠ "")
    (n : Nat) (st : SecurityState)
    (hst : st.cachedAttestMessagePrefix = some p) :
    attestCalls env n st = (List.replicate n (p, false), st) := by
  induction n with
  | zero => simp [attestCalls]
  | succ n ih =>
    have hfalsy : jsFalsy (some p) = false := by
      simp only [jsFalsy, beq_eq_false_iff_ne, ne_eq]
      exact hp
    simp [attestCalls, getAttestMessagePrefix, hfalsy, hst, ih,
      List.replicate]

/-- With a cached non-empty pause prefix, every further call returns it,
reads nothing, and leaves the state unchanged. -/
theorem pauseCalls_cached (env : ChainEnv) (p : String) (hp : p ≠ "")
    (n : Nat) (st : SecurityState)
    (hst : st.cachedPauseMessagePrefix = some p) :
    pauseCalls env n st = (List.replicate n (p, false), st) := by
  induction n with
  | zero => simp [pauseCalls]
  | succ n ih =>
    have hfalsy : jsFalsy (some p) = false := by
      simp only [jsFalsy, beq_eq_false_iff_ne, ne_eq]
      exact hp
    simp [pauseCalls, getPauseMessagePrefix, hfalsy, hst, ih,
      List.replicate]

/-- C3 (amended): provided the contract's prefix constants are non-empty
strings, each prefix is read from the DSM contract exactly once per process:
in any sequence of calls starting from the initial state, only the first
call of `getAttestMessagePrefix` (resp. `getPauseMessagePrefix`) reads the
contract, every later call returns the first call's value without a read,
and the cached field, once set, holds that value unchanged. -/
theorem messagePrefixes_read_once (env : ChainEnv)
    (hA : env.attestPrefixValue ≠ "") (hP : env.pausePrefixValue ≠ "")
    (n : Nat) :
    (attestCalls env (n + 1) initialSecurityState).1
        = (env.attestPrefixValue, true)
          :: List.replicate n (env.attestPrefixValue, false) ∧
    ((attestCalls env (n + 1) initialSecurityState).2).cachedAttestMessagePrefix
        = some env.attestPrefixValue ∧
    (pauseCalls env (n + 1) initialSecurityState).1
        = (env.pausePrefixValue, true)
          :: List.replicate n (env.pausePrefixValue, false) ∧
    ((pauseCalls env (n + 1) initialSecurityState).2).cachedPauseMessagePrefix
        = some env.pausePrefixValue := by
  have hstepA :
      attestCalls env (n + 1) initialSecurityState
        = ((env.attestPrefixValue, true)
            :: List.replicate n (env.attestPrefixValue, false),
           { initialSecurityState with
              cachedAttestMessagePrefix := some env.attestPrefixValue }) := by
    simp only [attestCalls, getAttestMessagePrefix, initialSecurityState,
      jsFalsy, if_pos]
    rw [attestCalls_cached env env.attestPrefixValue hA n _ rfl]
  have hstepP :
      pauseCalls env (n + 1) initialSecurityState
        = ((env.pausePrefixValue, true)
            :: List.replicate n (env.pausePrefixValue, false),
           { initialSecurityState with
              cachedPauseMessagePrefix := some env.pausePrefixValue }) := by
    simp only [pauseCalls, getPauseMessagePrefix, initialSecurityState,
      jsFalsy, if_pos]
    rw [pauseCalls_cached env env.pausePrefixValue hP n _ rfl]
  rw [hstepA, hstepP]
  exact ⟨rfl, rfl, rfl, rfl⟩

/-- C3 (amended) at a concrete input: non-empty prefixes, two calls each. -/
theorem messagePrefixes_read_once_witness :
    (attestCalls envConcrete 2 initialSecurityState).1
        = (envConcrete.attestPrefixValue, true)
          :: List.replicate 1 (envConcrete.attestPrefixValue, false) ∧
    ((attestCalls envConcrete 2 initialSecurityState).2).cachedAttestMessagePrefix
        = some envConcrete.attestPrefixValue ∧
    (pauseCalls envConcrete 2 initialSecurityState).1
        = (envConcrete.pausePrefixValue, true)
          :: List.replicate 1 (envConcrete.pausePrefixValue, false) ∧
    ((pauseCalls envConcrete 2 initialSecurityState).2).cachedPauseMessagePrefix
        = some envConcrete.pausePrefixValue :=
  messagePrefixes_read_once envConcrete (by decide) (by decide) 1

/-- C1: for every signature, `pauseDeposits` submits exactly the call
`pauseDeposits(blockNumber, stakingModuleId, {r, vs})` — `r` the signature's
`r` component, `vs` its `_vs` component — through the DSM contract connected
to the wallet-connected provider, and when the transaction is accepted,
awaits exactly one confirmation (`tx.wait`) before returning. -/
theorem pauseDeposits_submits_and_waits (env : PauseEnv)
    (blockNumber stakingModuleId : Nat) (signature : Signature) :
    (pauseDeposits env blockNumber stakingModuleId signature).calls
      = [(getContractWithSigner env.chain,
          { blockNumber := blockNumber, stakingModuleId := stakingModuleId,
            r := signature.r, vs := signature._vs })] ∧
    getContractWithSigner env.chain
      = { contractAddress := env.chain.dsmAddress,
          signerWallet := env.chain.walletKey,
          signerProvider := env.chain.providerId } ∧
    (∀ h : String, env.txOutcome = Except.ok h →
      (pauseDeposits env blockNumber stakingModuleId
          signature).confirmationsAwaited = 1) ∧
    (∀ h : String, env.txOutcome = Except.ok h →
      env.waitOutcome = Except.ok () →
      (pauseDeposits env blockNumber stakingModuleId signature).result
        = Except.ok ()) := by
  refine ⟨?_, rfl, ?_, ?_⟩
  · cases htx : env.txOutcome <;> cases hw : env.waitOutcome <;>
      simp [pauseDeposits, htx, hw]
  · intro h htx
    cases hw : env.waitOutcome <;> simp [pauseDeposits, htx, hw]
  · intro h htx hw
    simp [pauseDeposits, htx, hw]

/-- C2 fails as stated: a successful `pauseDeposits` invocation increments
the pause-attempt counter (the increment happens unconditionally at entry),
and a rejection because the module is already paused is not swallowed — it
propagates as an error out of the method body. -/
theorem pauseDeposits_counter_counterexample :
    (pauseDeposits pauseEnvSuccess 100 1 sigConcrete).result
        = Except.ok () ∧
    (pauseDeposits pauseEnvSuccess 100 1 sigConcrete).pauseAttemptsInc = 1 ∧
    (pauseDeposits pauseEnvAlreadyPaused 100 1 sigConcrete).result
        = Except.error TxError.alreadyPaused ∧
    (pauseDeposits pauseEnvAlreadyPaused 100 1 sigConcrete).pauseAttemptsInc
        = 1 := by
  exact ⟨rfl, rfl, rfl, rfl⟩

/-- C2 (amended): `pauseDeposits` increments the pause-attempt counter
exactly once on every invocation — success, already-paused rejection and any
other failure alike — and catches no error in its body: every rejection,
the already-paused one included, propagates to the caller (where the
`OneAtTime` wrapper handles it). -/
theorem pauseDeposits_attempts_always (env : PauseEnv)
    (blockNumber stakingModuleId : Nat) (signature : Signature) :
    (pauseDeposits env blockNumber stakingModuleId
        signature).pauseAttemptsInc = 1 ∧
    (∀ e : TxError, env.txOutcome = Except.error e →
      (pauseDeposits env blockNumber stakingModuleId signature).result
        = Except.error e) := by
  constructor
  · cases htx : env.txOutcome <;> cases hw : env.waitOutcome <;>
      simp [pauseDeposits, htx, hw]
  · intro e htx
    simp [pauseDeposits, htx]

/-- Successive prefix reads agree: a second call to
`getAttestMessagePrefix` in the state the first left behind returns the
first call's value. -/
theorem attest_value_stable (env : ChainEnv) (st : SecurityState) :
    (getAttestMessagePrefix env
        ((getAttestMessagePrefix env st).2.1)).1
      = (getAttestMessagePrefix env st).1 := by
  rcases hc : st.cachedAttestMessagePrefix with _ | s
  · by_cases hv : env.attestPrefixValue = "" <;>
      simp [getAttestMessagePrefix, jsFalsy, hc, hv]
  · by_cases hs : s = ""
    · subst hs
      by_cases hv : env.attestPrefixValue = "" <;>
        simp [getAttestMessagePrefix, jsFalsy, hc, hv]
    · simp [getAttestMessagePrefix, jsFalsy, hc, hs]

/-- Successive prefix reads agree: a second call to
`getPauseMessagePrefix` in the state the first left behind returns the
first call's value. -/
theorem pause_value_stable (env : ChainEnv) (st : SecurityState) :
    (getPauseMessagePrefix env
        ((getPauseMessagePrefix env st).2.1)).1
      = (getPauseMessagePrefix env st).1 := by
  rcases hc : st.cachedPauseMessagePrefix with _ | s
  · by_cases hv : env.pausePrefixValue = "" <;>
      simp [getPauseMessagePrefix, jsFalsy, hc, hv]
  · by_cases hs : s = ""
    · subst hs
      by_cases hv : env.pausePrefixValue = "" <;>
        simp [getPauseMessagePrefix, jsFalsy, hc, hv]
    · simp [getPauseMessagePrefix, jsFalsy, hc, hs]

/-- C7: signing is deterministic — with the wallet key and contract
constants fixed, a repeated call to `signDepositData` (resp.
`signPauseData`) with the same arguments, in the state the first call left
behind, produces the same signature — and the guardian address recovered
from any produced signature equals the address `getGuardianAddress`
exposes. -/
theorem signing_deterministic_and_recoverable (env : ChainEnv)
    (st : SecurityState) (depositRoot : String)
    (keysOpIndex blockNumber : Nat) (blockHash : String)
    (stakingModuleId : Nat) :
    (signDepositData env
        (signDepositData env st depositRoot keysOpIndex blockNumber
          blockHash stakingModuleId).2
        depositRoot keysOpIndex blockNumber blockHash stakingModuleId).1
      = (signDepositData env st depositRoot keysOpIndex blockNumber
          blockHash stakingModuleId).1 ∧
    recoverAddress
        (signDepositData env st depositRoot keysOpIndex blockNumber
          blockHash stakingModuleId).1
      = getGuardianAddress env ∧
    (signPauseData env
        (signPauseData env st blockNumber stakingModuleId).2
        blockNumber stakingModuleId).1
      = (signPauseData env st blockNumber stakingModuleId).1 ∧
    recoverAddress
        (signPauseData env st blockNumber stakingModuleId).1
      = getGuardianAddress env := by
  refine ⟨?_, ?_, ?_, ?_⟩
  · simp only [signDepositData]
    rw [attest_value_stable]
  · simp [signDepositData, walletSignDepositData, walletSignHash,
      recoverAddress, Nat.unpair_pair, getGuardianAddress, walletAddress]
  · simp only [signPauseData]
    rw [pause_value_stable]
  · simp [signPauseData, walletSignPauseData, walletSignHash,
      recoverAddress, Nat.unpair_pair, getGuardianAddress, walletAddress]

/-- From an in-flight count of at most one, any event sequence keeps the
count at most one. -/
theorem oneAtTimeRun_le_one (evs : List MutexEvent) :
    ∀ inFlight : Nat, inFlight ≤ 1 → oneAtTimeRun inFlight evs ≤ 1 := by
  induction evs with
  | nil =>
    intro inFlight h
    exact h
  | cons ev evs ih =>
    intro inFlight h
    cases ev with
    | call =>
      by_cases h1 : 1 ≤ inFlight
      · simpa [oneAtTimeRun, oneAtTimeStep, h1] using ih inFlight h
      · have h0 : inFlight = 0 := by omega
        subst h0
        simpa [oneAtTimeRun, oneAtTimeStep] using ih 1 (by omega)
    | complete =>
      exact ih _ (by simpa [oneAtTimeRun, oneAtTimeStep] using by omega)

/-- C5: the `OneAtTime` gate keeps at most one `pauseDeposits` invocation in
flight — from the idle state, every event sequence leaves at most one in
flight — and a call arriving while one is in flight does not start a second
on-chain submission. -/
theorem pause_submission_serialized :
    (∀ evs : List MutexEvent, oneAtTimeRun 0 evs ≤ 1) ∧
    (∀ inFlight : Nat, 1 ≤ inFlight →
      (oneAtTimeStep inFlight MutexEvent.call).2 = false) := by
  constructor
  · intro evs
    exact oneAtTimeRun_le_one evs 0 (by omega)
  · intro inFlight h
    simp [oneAtTimeStep, h]

/-- A paused module absorbs all later outcomes. -/
theorem pauseRetryRun_of_paused (outcomes : List Bool) (st : RetryState)
    (h : st.paused = true) : pauseRetryRun st outcomes = st := by
  induction outcomes with
  | nil => rfl
  | cons o rest ih => simpa [pauseRetryRun, pauseRetryStep, h] using ih

/-- While every submission fails, every block attempts again. -/
theorem pauseRetryRun_all_failures (outcomes : List Bool) :
    ∀ a : Nat, (∀ o ∈ outcomes, o = false) →
      pauseRetryRun ⟨false, a⟩ outcomes
        = ⟨false, a + outcomes.length⟩ := by
  induction outcomes with
  | nil =>
    intro a _
    rfl
  | cons o rest ih =>
    intro a hall
    have ho : o = false := hall o (List.mem_cons_self o rest)
    subst ho
    have hrest := ih (a + 1) (fun o ho => hall o (List.mem_cons_of_mem _ ho))
    rw [show pauseRetryRun ⟨false, a⟩ (false :: rest)
        = pauseRetryRun ⟨false, a + 1⟩ rest from rfl, hrest]
    simp only [List.length_cons, RetryState.mk.injEq]
    exact ⟨trivial, by omega⟩

/-- The run ends paused exactly when some block's submission succeeded. -/
theorem pauseRetryRun_paused_iff (outcomes : List Bool) :
    ∀ a : Nat, ((pauseRetryRun ⟨false, a⟩ outcomes).paused = true ↔
      true ∈ outcomes) := by
  induction outcomes with
  | nil =>
    intro a
    simp [pauseRetryRun]
  | cons o rest ih =>
    intro a
    cases o with
    | true =>
      rw [show pauseRetryRun ⟨false, a⟩ (true :: rest)
          = pauseRetryRun ⟨true, a + 1⟩ rest from rfl]
      rw [pauseRetryRun_of_paused rest ⟨true, a + 1⟩ rfl]
      simp
    | false =>
      rw [show pauseRetryRun ⟨false, a⟩ (false :: rest)
          = pauseRetryRun ⟨false, a + 1⟩ rest from rfl]
      simp [ih (a + 1)]

/-- C6: the pause path is never silently dropped — starting unpaused, if the
run has not yet succeeded, then every block so far carried a submission
attempt (a failure on one block is retried on the next), and the run ends
paused exactly when some block's submission succeeded. -/
theorem pause_retry_until_success (outcomes : List Bool) :
    ((pauseRetryRun ⟨false, 0⟩ outcomes).paused = false →
      (pauseRetryRun ⟨false, 0⟩ outcomes).attempts = outcomes.length) ∧
    ((pauseRetryRun ⟨false, 0⟩ outcomes).paused = true ↔
      true ∈ outcomes) := by
  constructor
  · intro hnot
    have hall : ∀ o ∈ outcomes, o = false := by
      intro o ho
      cases o with
      | false => rfl
      | true =>
        have := (pauseRetryRun_paused_iff outcomes 0).mpr ho
        rw [this] at hnot
        cases hnot
    rw [pauseRetryRun_all_failures outcomes 0 hall]
    simp
  · exact pauseRetryRun_paused_iff outcomes 0

end LidoCouncil
